import Mathlib

/-
Shallow embedding of the incremental crawl-and-rank pipeline of the
info-collector-v2ex repository (src/database.py, src/v2ex_crawler.py,
src/web_parser.py), together with proofs about its specified properties.

Conventions of the embedding:
* Python strings are `List Char`; Python `len`/slicing become `List.length`,
  `List.take`, `List.drop` (both count Unicode code points, as Python does).
* Machine integers are `Int`/`Nat` (MySQL INT UNSIGNED columns hold values
  far below any overflow the code could reach, and Python ints are unbounded).
* MySQL DECIMAL arithmetic in the hotness UPDATE is modelled with `ℚ`;
  SQL NULL is `Option`.  NULL propagation through arithmetic (`x - NULL`,
  `LEAST(NULL, y)` …) is modelled explicitly where it matters.
* The MySQL tables are modelled as functions from the primary key to
  `Option row` (INSERT ... ON DUPLICATE KEY UPDATE is a keyed upsert).
* Fallible persistence is modelled by a failure oracle `fails : item → Bool`;
  an `executemany` batch raises (and the transaction is rolled back) iff some
  item of the batch fails, mirroring a poison row in the batch.
-/

namespace V2EX

/-! ### Python-level string helpers -/

/-- Python `str.isspace` / regex `\s` for the ASCII whitespace characters the
crawler can actually meet in scraped text. -/
def pyIsSpace (c : Char) : Bool :=
  c = ' ' || c = '\t' || c = '\n' || c = '\r' || c = '\x0b' || c = '\x0c'

/-- Decimal value of a digit string (the semantic value of the group captured
by `(\d+)`). -/
def natOfDigits (ds : List Char) : Nat :=
  ds.foldl (fun a c => a * 10 + (c.toNat - '0'.toNat)) 0

/-- Python `sub in s` substring test. -/
def containsSub (sub : List Char) : List Char → Bool
  | [] => sub.isEmpty
  | c :: rest => sub.isPrefixOf (c :: rest) || containsSub sub rest

/-- `re.search(r'(\d+)\s*MARKER', s)`: leftmost maximal digit run followed by
optional whitespace and the literal marker; returns the captured number.
(The markers used by the crawler are CJK words, which contain neither digits
nor whitespace, so the regex engine's backtracking inside `\d+` can never
produce a match that this left-to-right scan misses.) -/
def findNumBefore (marker : List Char) : List Char → Option Nat
  | [] => none
  | c :: rest =>
    if c.isDigit then
      let digits := (c :: rest).takeWhile (·.isDigit)
      let after := ((c :: rest).dropWhile (·.isDigit)).dropWhile pyIsSpace
      if marker.isPrefixOf after then some (natOfDigits digits)
      else findNumBefore marker rest
    else findNumBefore marker rest

/-- Python `int(s)` on a string: optional surrounding whitespace, optional
sign, then a non-empty digit run.  (Numeric-separator underscores are not
modelled; the scraped id attributes never contain them.) -/
def pyParseInt (s : List Char) : Option Int :=
  let s1 := (((s.dropWhile pyIsSpace).reverse.dropWhile pyIsSpace).reverse)
  let core : List Char → Option Nat := fun t =>
    if t ≠ [] ∧ t.all (·.isDigit) then some (natOfDigits t) else none
  match s1 with
  | '-' :: t => (core t).map (fun n => -(n : Int))
  | '+' :: t => (core t).map (fun n => (n : Int))
  | t => (core t).map (fun n => (n : Int))

/-- Python `s.strip()`. -/
def pyStrip (s : List Char) : List Char :=
  ((s.dropWhile pyIsSpace).reverse.dropWhile pyIsSpace).reverse

/-- `range(0, len(xs), n)` slicing: split a list into chunks of `n`. -/
def chunksOf (n : Nat) (xs : List α) : List (List α) :=
  if h : xs.isEmpty ∨ n = 0 then [] else
    xs.take n :: chunksOf n (xs.drop n)
  termination_by xs.length
  decreasing_by
    simp only [not_or, List.isEmpty_eq_true] at h
    have h1 : xs ≠ [] := h.1
    have h2 : 0 < n := Nat.pos_of_ne_zero h.2
    have : 0 < xs.length := List.length_pos.mpr h1
    simp only [List.length_drop]
    omega

/-! ### Reply id synthesis (`_parse_reply_cell`, src/v2ex_crawler.py:227-236)

`reply_id_attr = cell.get('id', '')`; if it starts with `"r_"` the numeric
part is fed to `int`, a `ValueError` falling back to the synthetic id
`topic_id * 1000 + floor`; an attribute without the prefix (including the
missing-attribute default `''`) also falls back to the synthetic id. -/

def parseReplyId (idAttr : List Char) (topicId floor : Nat) : Int :=
  if ['r', '_'].isPrefixOf idAttr then
    match pyParseInt (idAttr.drop 2) with
    | some n => n
    | none => (topicId * 1000 + floor : Nat)
  else (topicId * 1000 + floor : Nat)

/-! ### Content sanitization (`_sanitize_topic_data` / `_sanitize_reply_data`,
src/database.py:43-73 and 482-501) -/

/-- `original[:max_chars - len(suffix)] + suffix` applied only when
`len(original) > max_chars`. -/
def truncateWithSuffix (maxChars : Nat) (suffix : List Char) (s : List Char) :
    List Char :=
  if maxChars < s.length then s.take (maxChars - suffix.length) ++ suffix else s

/-- The topic-content truncation marker `"...[内容被截断]"` (10 characters). -/
def topicSuffix : List Char := "...[内容被截断]".data

/-- The reply-content truncation marker `"...[回复被截断]"` (10 characters). -/
def replySuffix : List Char := "...[回复被截断]".data

/-- Topic content field after `_sanitize_topic_data` (the `content` branch:
a falsy (empty) content is left untouched, which agrees with
`truncateWithSuffix` because an empty list is never over the limit). -/
def sanitizeTopicContent (c : List Char) : List Char :=
  truncateWithSuffix 16000 topicSuffix c

/-- Reply content field after `_sanitize_reply_data`. -/
def sanitizeReplyContent (c : List Char) : List Char :=
  truncateWithSuffix 3000 replySuffix c

/-! ### Relative-time parsing (`_parse_relative_time`,
src/v2ex_crawler.py:293-320 and the identical copy in
src/web_parser.py:96-125)

An empty (falsy) input returns `None` before the `try` block.  Otherwise the
three relative phrases are tried in order (`in` containment check, then the
`(\d+)\s*MARKER` search), then an anchored `\d{4}-\d{2}-\d{2}` match routes
the string into `datetime.strptime(text[:19], '%Y-%m-%d %H:%M:%S')`, whose
`ValueError` is swallowed by the enclosing `except`, which returns "now".
Every other path falls through to `return now`.

`datetime.timestamp()` converts the parsed naive datetime through the local
timezone; that environment-dependent conversion is the abstract parameter
`epochOf`.  `strptimeFull` models the strptime call for the canonical
two-digit-field 19-character shape; the laxer single-digit forms the Python
directives also admit are not modelled (no claim quantifies over them). -/

structure DateFields where
  year : Nat
  month : Nat
  day : Nat
  hour : Nat
  minute : Nat
  second : Nat
  deriving DecidableEq

def isLeapYear (y : Nat) : Bool :=
  (y % 4 = 0 && y % 100 ≠ 0) || y % 400 = 0

def daysInMonth (y m : Nat) : Nat :=
  if m = 2 then (if isLeapYear y then 29 else 28)
  else if m = 4 ∨ m = 6 ∨ m = 9 ∨ m = 11 then 30
  else 31

/-- `datetime.strptime(s, '%Y-%m-%d %H:%M:%S')` on the canonical
`YYYY-MM-DD HH:MM:SS` shape, including the calendar validation performed by
the `datetime` constructor (month 1-12, day within the month, hour ≤ 23,
minute ≤ 59, second ≤ 59, year ≥ 1). -/
def strptimeFull (s : List Char) : Option DateFields :=
  match s with
  | [y1, y2, y3, y4, c1, m1, m2, c2, d1, d2, c3, h1, h2, c4, n1, n2, c5, e1, e2] =>
    if ([y1, y2, y3, y4, m1, m2, d1, d2, h1, h2, n1, n2, e1, e2].all (·.isDigit))
        ∧ c1 = '-' ∧ c2 = '-' ∧ c3 = ' ' ∧ c4 = ':' ∧ c5 = ':' then
      let y := natOfDigits [y1, y2, y3, y4]
      let mo := natOfDigits [m1, m2]
      let d := natOfDigits [d1, d2]
      let h := natOfDigits [h1, h2]
      let mi := natOfDigits [n1, n2]
      let se := natOfDigits [e1, e2]
      if 1 ≤ y ∧ 1 ≤ mo ∧ mo ≤ 12 ∧ 1 ≤ d ∧ d ≤ daysInMonth y mo
          ∧ h ≤ 23 ∧ mi ≤ 59 ∧ se ≤ 59 then
        some ⟨y, mo, d, h, mi, se⟩
      else none
    else none
  | _ => none

/-- Anchored `re.match(r'\d{4}-\d{2}-\d{2}', s)`. -/
def matchesDatePrefix (s : List Char) : Bool :=
  match s with
  | y1 :: y2 :: y3 :: y4 :: '-' :: m1 :: m2 :: '-' :: d1 :: d2 :: _ =>
    [y1, y2, y3, y4, m1, m2, d1, d2].all (·.isDigit)
  | _ => false

def minuteMarker : List Char := "分钟前".data

def hourMarker : List Char := "小时前".data

def dayMarker : List Char := "天前".data

def parseRelativeTime (epochOf : DateFields → Int) (now : Int) (s : List Char) :
    Option Int :=
  if s.isEmpty then none
  else if containsSub minuteMarker s then
    match findNumBefore minuteMarker s with
    | some n => some (now - n * 60)
    | none => some now
  else if containsSub hourMarker s then
    match findNumBefore hourMarker s with
    | some n => some (now - n * 3600)
    | none => some now
  else if containsSub dayMarker s then
    match findNumBefore dayMarker s with
    | some n => some (now - n * 86400)
    | none => some now
  else if matchesDatePrefix s then
    match strptimeFull (s.take 19) with
    | some df => some (epochOf df)
    | none => some now
  else some now

/-! ### Section listing parser (`_parse_topic_cell` and helpers,
src/web_parser.py:85-268) -/

/-- `re.search(r'/t/(\d+)', url)`: leftmost `/t/` followed by at least one
digit; the greedy group takes the maximal digit run. -/
def extractTopicIdFromUrl : List Char → Option Nat
  | [] => none
  | c :: rest =>
    if ['/', 't', '/'].isPrefixOf (c :: rest) then
      let ds := ((c :: rest).drop 3).takeWhile (·.isDigit)
      if ds.isEmpty then extractTopicIdFromUrl rest else some (natOfDigits ds)
    else extractTopicIdFromUrl rest

/-- Remainder after the first (leftmost) occurrence of `sep`, or `none`. -/
def afterFirstSub (sep : List Char) : List Char → Option (List Char)
  | [] => if sep.isEmpty then some [] else none
  | c :: rest =>
    if sep.isPrefixOf (c :: rest) then some ((c :: rest).drop sep.length)
    else afterFirstSub sep rest

theorem afterFirstSub_length {sep : List Char} (hsep : sep ≠ []) :
    ∀ (s rest : List Char), afterFirstSub sep s = some rest →
      rest.length < s.length := by
  intro s
  induction s with
  | nil =>
    intro rest h
    simp only [afterFirstSub, List.isEmpty_eq_true] at h
    simp [hsep] at h
  | cons c tl ih =>
    intro rest h
    simp only [afterFirstSub] at h
    by_cases hp : sep.isPrefixOf (c :: tl)
    · simp only [hp, if_true, Option.some.injEq] at h
      subst h
      have hlen : 1 ≤ sep.length := by
        cases sep with
        | nil => exact absurd rfl hsep
        | cons _ _ => simp
      simp only [List.length_drop, List.length_cons]
      omega
    · simp only [hp, if_false] at h
      have := ih rest h
      simp only [List.length_cons]
      omega

/-- `s.split(sep)[-1]`: the piece after the last (left-to-right,
non-overlapping) occurrence of `sep`; the whole string when `sep` does not
occur. -/
def splitLastPiece (sep : List Char) (s : List Char) : List Char :=
  if hsep : sep.isEmpty then s
  else
    match hr : afterFirstSub sep s with
    | none => s
    | some rest => splitLastPiece sep rest
  termination_by s.length
  decreasing_by
    exact afterFirstSub_length (by simpa using hsep) s rest hr

/-- `'/member/' in href` then `href.split('/member/')[-1]`
(src/web_parser.py:219-224). -/
def memberNameOf (href : List Char) : Option (List Char) :=
  if containsSub ("/member/".data) href then
    some (splitLastPiece ("/member/".data) href)
  else none

/-- Python `str.isdigit` restricted to the ASCII digits the reply counter can
contain. -/
def isDigitStr (t : List Char) : Bool :=
  !t.isEmpty && t.all (·.isDigit)

/-- The in-memory topic record built by the parser and handed to the storage
gateway (the dict literal of src/web_parser.py:239-261; `content` is filled
in later by the detail fetcher). -/
structure TopicData where
  id : Nat
  title : List Char
  url : List Char
  node_name : Option (List Char)
  member_username : Option (List Char)
  replies : Int
  created : Int
  last_touched : Option Int
  last_modified : Option Int
  deleted : Bool
  content : List Char
  deriving DecidableEq

/-- The parts of one mobile-layout listing `div.cell` that
`_parse_topic_cell` inspects: the `a.topic-link` anchor (stripped text and
`href`), the optional `a[href^="/member/"]` anchor's href, and the optional
`a.count_livid` stripped text. -/
structure ListingCell where
  titleLink : Option (List Char × List Char)
  memberHref : Option (List Char)
  replyText : Option (List Char)
  deriving DecidableEq

/-- `_parse_topic_cell(cell, node_name)` (src/web_parser.py:196-268).
`now` is `int(datetime.now().timestamp())` taken at line 238: the mobile
layout exposes no timestamp, so both `created` and `last_touched` are set to
the wall clock and `last_modified` to `None`. -/
def parseTopicCell (now : Int) (nodeName : List Char) (cell : ListingCell) :
    Option TopicData :=
  match cell.titleLink with
  | none => none
  | some (title, href) =>
    match extractTopicIdFromUrl href with
    | none => none
    | some tid =>
      if tid = 0 then none
      else if title.isEmpty then none
      else
        let author := cell.memberHref.bind memberNameOf
        let replies : Int :=
          match cell.replyText with
          | some t => if isDigitStr t then (natOfDigits t : Int) else 0
          | none => 0
        some
          { id := tid
            title := title
            url := if href.head? = some '/' then ("https://www.v2ex.com".data) ++ href
                   else href
            node_name := some nodeName
            member_username := author
            replies := replies
            created := now
            last_touched := some now
            last_modified := none
            deleted := false
            content := [] }

/-! ### Storage rows (schema of src/database.py:118-191) -/

/-- A row of `v2ex_topics`.  `hotness_score` is a nullable DECIMAL, modelled
as `Option ℚ` (its schema default is `0.0`). -/
structure TopicRow where
  id : Nat
  title : List Char
  url : List Char
  content : List Char
  node_name : Option (List Char)
  member_username : Option (List Char)
  replies : Int
  created_timestamp : Int
  last_touched_timestamp : Option Int
  last_modified_timestamp : Option Int
  is_deleted : Bool
  total_thanks_count : Int
  hotness_score : Option ℚ
  crawled_at : Int
  deriving DecidableEq

/-- A row of `v2ex_replies`. -/
structure ReplyRow where
  id : Int
  topic_id : Nat
  member_username : Option (List Char)
  content : List Char
  reply_floor : Nat
  created_timestamp : Int
  last_modified_timestamp : Option Int
  thanks_count : Int
  crawled_at : Int
  deriving DecidableEq

/-- The in-memory reply record produced by `_parse_reply_cell` and consumed
by the reply upsert. -/
structure ReplyData where
  id : Int
  topic_id : Nat
  member_username : Option (List Char)
  content : List Char
  reply_floor : Nat
  created : Int
  last_modified : Option Int
  thanks : Int
  deriving DecidableEq

/-! ### Sanitization of whole records (src/database.py:43-73, 482-501) -/

/-- `_sanitize_topic_data`: title and url capped at 500 (no marker), content
truncated at 16000 with the visible marker, replies clamped into the
SMALLINT UNSIGNED range `[0, 65535]`.  The Python truthiness guards on
title/url/content skip only empty values, for which the cap is a no-op, so
they need no separate modelling. -/
def sanitizeTopicData (t : TopicData) : TopicData :=
  { t with
    title := t.title.take 500
    url := t.url.take 500
    content := sanitizeTopicContent t.content
    replies := min (max t.replies 0) 65535 }

/-- `_sanitize_reply_data`: content truncated at 3000 with the visible
marker, username capped at 50. -/
def sanitizeReplyData (r : ReplyData) : ReplyData :=
  { r with
    content := sanitizeReplyContent r.content
    member_username := r.member_username.map (·.take 50) }

/-! ### Upserts (`INSERT ... ON DUPLICATE KEY UPDATE`,
src/database.py:292-385 and 503-586)

A table is a function from its primary key to `Option row`.  The insert arm
lists exactly the columns of the `INSERT` column list (the omitted derived
columns `total_thanks_count` / `hotness_score` take their schema defaults
`0` / `0.0`); the update arm overwrites exactly the columns named in the
`ON DUPLICATE KEY UPDATE` clause.  `now` is the `crawled_at` stamp
(`get_beijing_time()`), taken once per call by the batch functions. -/

def insertTopicRow (t : TopicData) (now : Int) : TopicRow :=
  { id := t.id
    title := t.title
    url := t.url
    content := t.content
    node_name := t.node_name
    member_username := t.member_username
    replies := t.replies
    created_timestamp := t.created
    last_touched_timestamp := t.last_touched
    last_modified_timestamp := t.last_modified
    is_deleted := t.deleted
    total_thanks_count := 0
    hotness_score := some 0
    crawled_at := now }

/-- The `ON DUPLICATE KEY UPDATE` arm of the topic upsert: only title,
content, replies, last_touched_timestamp, last_modified_timestamp,
is_deleted and crawled_at are overwritten. -/
def mergeTopicRow (old : TopicRow) (t : TopicData) (now : Int) : TopicRow :=
  { old with
    title := t.title
    content := t.content
    replies := t.replies
    last_touched_timestamp := t.last_touched
    last_modified_timestamp := t.last_modified
    is_deleted := t.deleted
    crawled_at := now }

def upsertTopic (db : Nat → Option TopicRow) (t : TopicData) (now : Int) :
    Nat → Option TopicRow :=
  fun i =>
    if i = t.id then
      some (match db t.id with
            | none => insertTopicRow t now
            | some o => mergeTopicRow o t now)
    else db i

/-- `batch_insert_or_update_topics` (src/database.py:335-385).  The whole
list goes through one `executemany` inside one transaction; if any row makes
it raise, `get_cursor` rolls the transaction back and re-raises — there is
no per-item fallback for topics.  The `Bool` is `true` iff the call
returned normally. -/
def batchInsertOrUpdateTopics (fails : TopicData → Bool) (now : Int)
    (db : Nat → Option TopicRow) (ts : List TopicData) :
    (Nat → Option TopicRow) × Bool :=
  let s := ts.map sanitizeTopicData
  if s.any fails then (db, false)
  else (s.foldl (fun d t => upsertTopic d t now) db, true)

def insertReplyRow (r : ReplyData) (now : Int) : ReplyRow :=
  { id := r.id
    topic_id := r.topic_id
    member_username := r.member_username
    content := r.content
    reply_floor := r.reply_floor
    created_timestamp := r.created
    last_modified_timestamp := r.last_modified
    thanks_count := r.thanks
    crawled_at := now }

/-- The `ON DUPLICATE KEY UPDATE` arm of the reply upsert: only content,
thanks_count and crawled_at are overwritten. -/
def mergeReplyRow (old : ReplyRow) (r : ReplyData) (now : Int) : ReplyRow :=
  { old with
    content := r.content
    thanks_count := r.thanks
    crawled_at := now }

def upsertReply (db : Int → Option ReplyRow) (r : ReplyData) (now : Int) :
    Int → Option ReplyRow :=
  fun i =>
    if i = r.id then
      some (match db r.id with
            | none => insertReplyRow r now
            | some o => mergeReplyRow o r now)
    else db i

/-- One 500-chunk of `batch_insert_or_update_replies`: the chunk is
committed by one `executemany`; if that raises (rolled back, nothing of the
chunk persisted) the chunk is retried item by item through
`insert_or_update_reply`, the items that also fail individually being
logged and skipped. -/
def replyChunkStep (fails : ReplyData → Bool) (now : Int)
    (d : Int → Option ReplyRow) (batch : List ReplyData) : Int → Option ReplyRow :=
  if batch.any fails then
    batch.foldl (fun d' r => if fails r then d' else upsertReply d' r now) d
  else batch.foldl (fun d' r => upsertReply d' r now) d

/-- `batch_insert_or_update_replies` (src/database.py:527-586): sanitize,
split into chunks of 500, commit each chunk with the per-item fallback on
chunk failure. -/
def batchInsertOrUpdateReplies (fails : ReplyData → Bool) (now : Int)
    (db : Int → Option ReplyRow) (rs : List ReplyData) : Int → Option ReplyRow :=
  (chunksOf 500 (rs.map sanitizeReplyData)).foldl (replyChunkStep fails now) db

/-! ### Author persistence (`batch_insert_users_by_username` and
`insert_or_update_user`, src/database.py:215-290).  `v2ex_users` is keyed by
the unique `username`; the value is the `first_seen_at` stamp.  `INSERT
IGNORE` keeps the existing stamp on conflict. -/

/-- `insert_or_update_user` on an already-assembled user record: re-caps the
username at 50, skips an empty username, and swallows its own failures. -/
def insertIgnoreUser (fails : List Char → Bool) (now : Int)
    (db : List Char → Option Int) (username : List Char) :
    List Char → Option Int :=
  let u := username.take 50
  if u.isEmpty then db
  else if fails u then db
  else fun k => if k = u then some ((db u).getD now) else db k

/-- `batch_insert_users_by_username`: deduplicate, strip, drop empties, cap
at 50, then one `INSERT IGNORE ... executemany`; if that raises, each user
is retried through `insert_or_update_user`.  (Python deduplicates through
`list(set(...))`, whose order is unspecified; `eraseDups` keeps the same set
of usernames, and `INSERT IGNORE` makes presence order-independent.)  Since
`INSERT IGNORE` on the success path and the per-item fallback insert exactly
the same non-failing rows, both branches reduce to the same fold. -/
def batchInsertUsersByUsername (fails : List Char → Bool) (now : Int)
    (db : List Char → Option Int) (usernames : List (List Char)) :
    List Char → Option Int :=
  let cleaned := (usernames.eraseDups).filterMap
    (fun u =>
      let s := pyStrip u
      if s.isEmpty then none else some (s.take 50))
  cleaned.foldl (fun d u => insertIgnoreUser fails now d u) db

/-! ### Change-detection filter (`_filter_topics_to_update`,
src/v2ex_crawler.py:1093-1118, over `get_topics_last_touched_batch`,
src/database.py:396-410) -/

/-- `get_topics_last_touched_batch`: the id → last_touched map for the
requested ids, with rows whose `last_touched_timestamp` is SQL NULL dropped
from the dict (the comprehension at src/database.py:410). -/
def getTopicsLastTouchedBatch (db : Nat → Option TopicRow) (ids : List Nat) :
    Nat → Option Int :=
  fun i => if i ∈ ids then (db i).bind (·.last_touched_timestamp) else none

/-- `_filter_topics_to_update`: keep a topic iff its id is truthy and
(`db_last_touched is None` or the scraped `last_touched` is truthy and
strictly greater).  A pure read-only filter: it takes the storage state and
returns a sublist of its input, touching nothing. -/
def filterTopicsToUpdate (db : Nat → Option TopicRow) (topics : List TopicData) :
    List TopicData :=
  if topics.isEmpty then []
  else
    let ids := (topics.map (·.id)).filter (· != 0)
    let m := getTopicsLastTouchedBatch db ids
    topics.filter (fun t =>
      t.id != 0 &&
        (match m t.id with
         | none => true
         | some dbT =>
           match t.last_touched with
           | none => false
           | some c => c != 0 && dbT < c))

/-! ### Hotness scoring (`update_hotness_scores`, src/database.py:629-674)

One SQL `UPDATE` over every matched row (the id list, or all rows when no
list is given).  SQL NULL propagation: when `last_touched_timestamp` is
NULL the whole expression — `GREATEST`, the product and `LEAST` included —
evaluates to NULL, and the row's `hotness_score` is assigned NULL.
Division is by `time_decay_hours * 3600`, nonzero for every configuration
the claims quantify over (a zero divisor would yield SQL NULL and is not
modelled). -/

def idMatched (idsOpt : Option (List Nat)) (i : Nat) : Bool :=
  match idsOpt with
  | none => true
  | some ids => ids.contains i

/-- `GREATEST(0.1, 1.0 - ((now - last_touched) / (hours * 3600)))`. -/
def hotnessDecay (now hours lt : Int) : ℚ :=
  max (1 / 10) (1 - (((now : ℚ) - (lt : ℚ)) / ((hours : ℚ) * 3600)))

/-- `LEAST((replies * w1 + thanks * w2) * GREATEST(...), max_score)`. -/
def hotnessFormula (rw tw maxs : ℚ) (now hours lt : Int)
    (replies thanks : Int) : ℚ :=
  min (((replies : ℚ) * rw + (thanks : ℚ) * tw) * hotnessDecay now hours lt) maxs

/-- The full `SET hotness_score = ...` expression with NULL propagation from
`last_touched_timestamp`. -/
def sqlHotness (rw tw : ℚ) (now : Int) (hours : Int) (maxs : ℚ)
    (replies thanks : Int) (lastTouched : Option Int) : Option ℚ :=
  match lastTouched with
  | none => none
  | some lt => some (hotnessFormula rw tw maxs now hours lt replies thanks)

def updateHotnessScores (idsOpt : Option (List Nat)) (rw tw : ℚ) (now : Int)
    (hours : Int) (maxs : ℚ) (db : Nat → Option TopicRow) :
    Nat → Option TopicRow :=
  fun i =>
    match db i with
    | none => none
    | some r =>
      if idMatched idsOpt i then
        some { r with
               hotness_score := sqlHotness rw tw now hours maxs r.replies
                 r.total_thanks_count r.last_touched_timestamp }
      else some r

end V2EX

namespace V2EX

example : topicSuffix.length = 10 := by decide

example : replySuffix.length = 10 := by decide

example : parseReplyId ("r_123".data) 7 4 = 123 := by decide

example : parseReplyId ("r_12a".data) 7 4 = 7004 := by decide

example : parseReplyId [] 7 4 = 7004 := by decide

example : parseRelativeTime (fun _ => 0) 1000 ("5分钟前".data) = some 700 := by decide

example : parseRelativeTime (fun _ => 0) 1000 ("2 小时前".data) = some (1000 - 7200) := by
  decide

example : parseRelativeTime (fun _ => 0) 1000 ("3天前".data) = some (1000 - 259200) := by
  decide

example : parseRelativeTime (fun _ => 0) 1000 ("什么".data) = some 1000 := by decide

example : parseRelativeTime (fun _ => 0) 1000 [] = none := by decide

example :
    parseRelativeTime (fun df => (df.year : Int)) 1000 ("2023-12-25 14:30:15".data) =
      some 2023 := by decide

example : parseRelativeTime (fun df => (df.year : Int)) 1000 ("2023-12-25".data) =
    some 1000 := by decide

/-! ### Generic facts about the truncation helper -/

theorem truncateWithSuffix_spec (maxChars : Nat) (suffix s : List Char)
    (hs : suffix.length ≤ maxChars) :
    (s.length ≤ maxChars → truncateWithSuffix maxChars suffix s = s) ∧
    (maxChars < s.length →
      truncateWithSuffix maxChars suffix s =
        s.take (maxChars - suffix.length) ++ suffix ∧
      (truncateWithSuffix maxChars suffix s).length = maxChars) ∧
    (truncateWithSuffix maxChars suffix s).length ≤ maxChars := by
  by_cases h : maxChars < s.length
  · refine ⟨fun hc => absurd h (by omega), fun _ => ⟨by simp [truncateWithSuffix, h], ?_⟩, ?_⟩
    · simp only [truncateWithSuffix, if_pos h, List.length_append, List.length_take]
      omega
    · simp only [truncateWithSuffix, if_pos h, List.length_append, List.length_take]
      omega
  · refine ⟨fun _ => by simp [truncateWithSuffix, h], fun hc => absurd hc h, ?_⟩
    simp only [truncateWithSuffix, if_neg h]
    omega

/-- C5: a thread body over 16000 characters (resp. a reply body over 3000) is
stored as the first `max - 10` characters followed by the fixed 10-character
truncation marker, at exactly the maximum length and never longer; bodies at
or below the maximum are stored unchanged.  The last two conjuncts tie the
content helpers to the record-level sanitizers actually called by the
upserts. -/
theorem c5_body_truncation (c : List Char) :
    (c.length ≤ 16000 → sanitizeTopicContent c = c) ∧
    (16000 < c.length →
      sanitizeTopicContent c = c.take 15990 ++ topicSuffix ∧
      (sanitizeTopicContent c).length = 16000) ∧
    (sanitizeTopicContent c).length ≤ 16000 ∧
    (c.length ≤ 3000 → sanitizeReplyContent c = c) ∧
    (3000 < c.length →
      sanitizeReplyContent c = c.take 2990 ++ replySuffix ∧
      (sanitizeReplyContent c).length = 3000) ∧
    (sanitizeReplyContent c).length ≤ 3000 ∧
    (∀ t : TopicData, (sanitizeTopicData t).content = sanitizeTopicContent t.content) ∧
    (∀ r : ReplyData, (sanitizeReplyData r).content = sanitizeReplyContent r.content) := by
  have ht := truncateWithSuffix_spec 16000 topicSuffix c (by decide)
  have hr := truncateWithSuffix_spec 3000 replySuffix c (by decide)
  have hts : topicSuffix.length = 10 := by decide
  have hrs : replySuffix.length = 10 := by decide
  refine ⟨ht.1, fun hc => ?_, ht.2.2, hr.1, fun hc => ?_, hr.2.2, fun _ => rfl, fun _ => rfl⟩
  · have := ht.2.1 hc
    rw [hts] at this
    exact this
  · have := hr.2.1 hc
    rw [hrs] at this
    exact this

theorem c5_body_truncation_witness :
    (sanitizeTopicContent (List.replicate 16001 'x')).length = 16000 ∧
    sanitizeReplyContent (List.replicate 3001 'y') =
      List.replicate 2990 'y' ++ replySuffix ∧
    sanitizeTopicContent ("ok".data) = "ok".data := by
  have h1 : (List.replicate 16001 'x').length = 16001 := List.length_replicate 16001 'x'
  have h2 : (List.replicate 3001 'y').length = 3001 := List.length_replicate 3001 'y'
  refine ⟨?_, ?_, ?_⟩
  · exact ((c5_body_truncation (List.replicate 16001 'x')).2.1 (by omega)).2
  · have h := ((c5_body_truncation (List.replicate 3001 'y')).2.2.2.2.1 (by omega)).1
    rw [List.take_replicate] at h
    have hmin : min 2990 3001 = 2990 := by norm_num
    rw [hmin] at h
    exact h
  · exact (c5_body_truncation ("ok".data)).1 (by decide)

/-- C6: a reply block whose id attribute is absent (the empty default) or
whose numeric part after the `"r_"` prefix does not parse as an integer gets
the deterministic synthetic id `topic_id * 1000 + floor`; a block whose
numeric part parses as an integer uses that integer. -/
theorem c6_reply_id (topicId floor : Nat) (attr : List Char) :
    ((['r', '_'].isPrefixOf attr = false ∨ pyParseInt (attr.drop 2) = none) →
      parseReplyId attr topicId floor = ((topicId * 1000 + floor : Nat) : Int)) ∧
    (∀ n : Int, ['r', '_'].isPrefixOf attr = true →
      pyParseInt (attr.drop 2) = some n → parseReplyId attr topicId floor = n) := by
  constructor
  · rintro (h | h)
    · simp [parseReplyId, h]
    · by_cases hp : ['r', '_'].isPrefixOf attr
      · simp [parseReplyId, hp, h]
      · simp [parseReplyId, hp]
  · intro n hp hparse
    simp [parseReplyId, hp, hparse]

theorem c6_reply_id_witness :
    parseReplyId ("r_42".data) 7 3 = 42 ∧ parseReplyId [] 7 3 = 7003 := by
  constructor
  · exact (c6_reply_id 7 3 ("r_42".data)).2 42 (by decide) (by decide)
  · simpa using (c6_reply_id 7 3 []).1 (Or.inl (by decide))

/-- C10: every summary the mobile-listing parser produces carries the
wall-clock parse time as both its creation and last-activity timestamp and a
null last-modified timestamp, so the change-detection filter always sees a
scraped last-activity equal to "now". -/
theorem c10_listing_timestamps (now : Int) (nodeName : List Char)
    (cell : ListingCell) (t : TopicData)
    (h : parseTopicCell now nodeName cell = some t) :
    t.created = now ∧ t.last_touched = some now ∧ t.last_modified = none := by
  unfold parseTopicCell at h
  split at h
  · exact absurd h (by simp)
  · split at h
    · exact absurd h (by simp)
    · split at h
      · exact absurd h (by simp)
      · split at h
        · exact absurd h (by simp)
        · simp only [Option.some.injEq] at h
          subst h
          exact ⟨rfl, rfl, rfl⟩

theorem c10_listing_timestamps_witness :
    (parseTopicCell 77 ("tech".data)
        ⟨some (("Hello".data), ("/t/5".data)), none, none⟩).elim False
      (fun t => t.created = 77 ∧ t.last_touched = some 77 ∧ t.last_modified = none) := by
  cases hp : parseTopicCell 77 ("tech".data)
      ⟨some (("Hello".data), ("/t/5".data)), none, none⟩ with
  | none => exact absurd hp (by decide)
  | some t => simpa using c10_listing_timestamps 77 ("tech".data) _ t hp

/-- C2: for a targeted thread with a non-null last-activity timestamp the
recompute stores exactly
`min(raw * max(0.1, 1 - (now - last_activity)/(hours*3600)), maxScore)`;
the decay factor is at least 0.1, the stored score lies in `[0, maxScore]`
whenever the weights and cap are nonnegative and the counters are
nonnegative (they are unsigned columns), and at the claim's concrete
instance (replies=10, endorsements=20, one hour of age, default weights)
the stored score is `9185/84 ≈ 109.3452`, within 0.01 of 109.35. -/
theorem c2_hotness_score (idsOpt : Option (List Nat)) (rw tw maxs : ℚ)
    (now hours : Int) (db : Nat → Option TopicRow) (i : Nat) (r : TopicRow)
    (lt : Int) (hdb : db i = some r) (hlt : r.last_touched_timestamp = some lt)
    (hm : idMatched idsOpt i = true) (hhours : hours ≠ 0)
    (hrw : 0 ≤ rw) (htw : 0 ≤ tw) (hmaxs : 0 ≤ maxs)
    (hrep : 0 ≤ r.replies) (hth : 0 ≤ r.total_thanks_count) :
    (updateHotnessScores idsOpt rw tw now hours maxs db i =
      some { r with hotness_score :=
                      some (hotnessFormula rw tw maxs now hours lt r.replies
                        r.total_thanks_count) }) ∧
    (1 / 10 : ℚ) ≤ hotnessDecay now hours lt ∧
    0 ≤ hotnessFormula rw tw maxs now hours lt r.replies r.total_thanks_count ∧
    hotnessFormula rw tw maxs now hours lt r.replies r.total_thanks_count ≤ maxs ∧
    (∀ n2 l2 : Int, n2 - l2 = 3600 →
      sqlHotness 5 3 n2 168 999999 10 20 (some l2) = some (9185 / 84) ∧
      |(9185 / 84 : ℚ) - 10935 / 100| ≤ 1 / 100) := by
  refine ⟨?_, le_max_left _ _, ?_, min_le_right _ _, ?_⟩
  · simp [updateHotnessScores, hdb, hm, sqlHotness, hlt]
  · refine le_min ?_ hmaxs
    refine mul_nonneg (add_nonneg (mul_nonneg ?_ hrw) (mul_nonneg ?_ htw)) ?_
    · exact_mod_cast hrep
    · exact_mod_cast hth
    · exact le_trans (by norm_num) (le_max_left (1 / 10 : ℚ) _)
  · intro n2 l2 hage
    have hc : ((n2 : ℚ) - (l2 : ℚ)) = 3600 := by
      have := congrArg (fun z : Int => (z : ℚ)) hage
      push_cast at this
      linarith
    constructor
    · simp only [sqlHotness, hotnessFormula, hotnessDecay, hc]
      norm_num
    · rw [abs_le]
      norm_num

def rowC2 : TopicRow :=
  ⟨1, [], [], [], none, none, 10, 0, some 0, none, false, 20, some 0, 0⟩

def dbC2 : Nat → Option TopicRow := fun i => if i = 1 then some rowC2 else none

theorem c2_hotness_score_witness :
    (updateHotnessScores none 5 3 3600 168 999999 dbC2 1).map (·.hotness_score) =
      some (some (9185 / 84)) := by
  have H := (c2_hotness_score none 5 3 999999 3600 168 dbC2 1 rowC2 0 rfl rfl rfl
    (by norm_num) (by norm_num) (by norm_num) (by norm_num) (by decide)
    (by decide)).1
  rw [H]
  norm_num [Option.map, hotnessFormula, hotnessDecay, rowC2]

def rowNullLT : TopicRow :=
  ⟨1, [], [], [], none, none, 0, 0, none, none, false, 0, some 0, 0⟩

def dbNullLT : Nat → Option TopicRow := fun i => if i = 1 then some rowNullLT else none

/-- C3 counterexample: a stored thread with a NULL last-activity timestamp
and hotness score `0.0` is targeted by the recompute; its hotness column is
NOT left unchanged — the NULL propagates through the SQL expression and the
column is set to NULL. -/
theorem c3_counterexample :
    updateHotnessScores (some [1]) 5 3 1000 168 999999 dbNullLT 1 ≠ dbNullLT 1 ∧
    (updateHotnessScores (some [1]) 5 3 1000 168 999999 dbNullLT 1).map
        (·.hotness_score) = some none := by
  decide

/-- C3 amended: a targeted thread whose stored last-activity timestamp is
null is NOT excluded from the recompute pass: the UPDATE matches it and SQL
NULL propagation sets its hotness score to NULL; only threads outside the
targeted id list keep their row unchanged. -/
theorem c3_null_last_activity (idsOpt : Option (List Nat)) (rw tw maxs : ℚ)
    (now hours : Int) (db : Nat → Option TopicRow) (i : Nat) (r : TopicRow)
    (hdb : db i = some r) (hlt : r.last_touched_timestamp = none) :
    (idMatched idsOpt i = true →
      updateHotnessScores idsOpt rw tw now hours maxs db i =
        some { r with hotness_score := none }) ∧
    (idMatched idsOpt i = false →
      updateHotnessScores idsOpt rw tw now hours maxs db i = some r) := by
  constructor
  · intro hm
    simp [updateHotnessScores, hdb, hm, sqlHotness, hlt]
  · intro hm
    simp [updateHotnessScores, hdb, hm]

theorem c3_null_last_activity_witness :
    updateHotnessScores (some [1]) 5 3 1000 168 999999 dbNullLT 1 =
      some { rowNullLT with hotness_score := none } := by
  exact (c3_null_last_activity (some [1]) 5 3 999999 1000 168 dbNullLT 1 rowNullLT
    rfl rfl).1 (by decide)

/-- C8: a topic upsert hitting an existing row rewrites exactly the mutable
columns (title, content, replies, last-activity, last-modified, soft-delete
flag, fetch stamp) and leaves id, url, node name, author, creation
timestamp (and the derived endorsement/hotness columns) untouched; a reply
upsert hitting an existing row rewrites exactly content, endorsement count
and fetch stamp, leaving id, parent, author, floor and both timestamps
untouched. -/
theorem c8_upsert_frame (db : Nat → Option TopicRow) (t : TopicData) (now : Int)
    (o : TopicRow) (hdb : db t.id = some o)
    (rdb : Int → Option ReplyRow) (r : ReplyData) (ro : ReplyRow)
    (hrdb : rdb r.id = some ro) :
    (upsertTopic db t now t.id = some (mergeTopicRow o t now) ∧
      (mergeTopicRow o t now).id = o.id ∧
      (mergeTopicRow o t now).url = o.url ∧
      (mergeTopicRow o t now).node_name = o.node_name ∧
      (mergeTopicRow o t now).member_username = o.member_username ∧
      (mergeTopicRow o t now).created_timestamp = o.created_timestamp ∧
      (mergeTopicRow o t now).total_thanks_count = o.total_thanks_count ∧
      (mergeTopicRow o t now).hotness_score = o.hotness_score ∧
      (mergeTopicRow o t now).title = t.title ∧
      (mergeTopicRow o t now).content = t.content ∧
      (mergeTopicRow o t now).replies = t.replies ∧
      (mergeTopicRow o t now).last_touched_timestamp = t.last_touched ∧
      (mergeTopicRow o t now).last_modified_timestamp = t.last_modified ∧
      (mergeTopicRow o t now).is_deleted = t.deleted ∧
      (mergeTopicRow o t now).crawled_at = now) ∧
    (upsertReply rdb r now r.id = some (mergeReplyRow ro r now) ∧
      (mergeReplyRow ro r now).id = ro.id ∧
      (mergeReplyRow ro r now).topic_id = ro.topic_id ∧
      (mergeReplyRow ro r now).member_username = ro.member_username ∧
      (mergeReplyRow ro r now).reply_floor = ro.reply_floor ∧
      (mergeReplyRow ro r now).created_timestamp = ro.created_timestamp ∧
      (mergeReplyRow ro r now).last_modified_timestamp = ro.last_modified_timestamp ∧
      (mergeReplyRow ro r now).content = r.content ∧
      (mergeReplyRow ro r now).thanks_count = r.thanks ∧
      (mergeReplyRow ro r now).crawled_at = now) := by
  refine ⟨⟨?_, rfl, rfl, rfl, rfl, rfl, rfl, rfl, rfl, rfl, rfl, rfl, rfl, rfl, rfl⟩,
    ⟨?_, rfl, rfl, rfl, rfl, rfl, rfl, rfl, rfl, rfl⟩⟩
  · simp [upsertTopic, hdb]
  · simp [upsertReply, hrdb]

def topicW : TopicData :=
  ⟨1, "nt".data, "u".data, none, none, 2, 5, some 9, none, false, "c".data⟩

def rowW : TopicRow :=
  ⟨1, "old".data, "oldu".data, "oldc".data, some ("n".data), some ("m".data),
    1, 4, some 8, none, false, 3, some 2, 7⟩

def replyW : ReplyData := ⟨10, 1, some ("a".data), "rc".data, 2, 6, none, 4⟩

def replyRowW : ReplyRow := ⟨10, 1, some ("b".data), "orc".data, 3, 5, none, 1, 2⟩

def dbW : Nat → Option TopicRow := fun i => if i = 1 then some rowW else none

def rdbW : Int → Option ReplyRow := fun i => if i = 10 then some replyRowW else none

theorem c8_upsert_frame_witness :
    upsertTopic dbW topicW 99 topicW.id = some (mergeTopicRow rowW topicW 99) ∧
    (mergeTopicRow rowW topicW 99).url = rowW.url ∧
    upsertReply rdbW replyW 99 replyW.id = some (mergeReplyRow replyRowW replyW 99) ∧
    (mergeReplyRow replyRowW replyW 99).reply_floor = replyRowW.reply_floor := by
  have H := c8_upsert_frame dbW topicW 99 rowW rfl rdbW replyW replyRowW rfl
  exact ⟨H.1.1, H.1.2.2.1, H.2.1, H.2.2.2.2.2.1⟩

/-- Membership characterization of the filter, with the batch lookup
inlined. -/
theorem mem_filterTopicsToUpdate (db : Nat → Option TopicRow)
    (topics : List TopicData) (t : TopicData) :
    t ∈ filterTopicsToUpdate db topics ↔
      t ∈ topics ∧
        (t.id != 0 &&
          (match (if t.id ∈ (topics.map (·.id)).filter (· != 0) then
                    (db t.id).bind (·.last_touched_timestamp)
                  else none) with
           | none => true
           | some dbT =>
             match t.last_touched with
             | none => false
             | some c => c != 0 && dbT < c)) = true := by
  unfold filterTopicsToUpdate getTopicsLastTouchedBatch
  by_cases h : topics.isEmpty
  · have hnil : topics = [] := by
      cases topics with
      | nil => rfl
      | cons a l => exact absurd h (by simp)
    subst hnil
    simp
  · simp only [h, Bool.false_eq_true, if_false, if_neg]
    exact List.mem_filter


/-- C1: a summary (with a truthy id and a truthy scraped last-activity, as
every parser-produced summary has) is kept by the change-detection filter
iff the batch lookup finds no stored last-activity for its id, or the
scraped last-activity is strictly greater than the stored one; the output
is a sublist of the input (pure filter, no writes — the storage state is
only read). -/
theorem c1_filter_stale (db : Nat → Option TopicRow) (topics : List TopicData) :
    (filterTopicsToUpdate db topics).Sublist topics ∧
    (∀ t ∈ topics, ∀ c : Int, t.id ≠ 0 → t.last_touched = some c → 0 < c →
      (∀ r, db t.id = some r → r.last_touched_timestamp.isSome) →
      (t ∈ filterTopicsToUpdate db topics ↔
        db t.id = none ∨
          ∃ r s, db t.id = some r ∧ r.last_touched_timestamp = some s ∧ s < c)) := by
  constructor
  · unfold filterTopicsToUpdate
    by_cases h : topics.isEmpty
    · simp [h]
    · rw [if_neg h]
      exact List.filter_sublist _
  · intro t ht c hid hlt hc hdbr
    rw [mem_filterTopicsToUpdate]
    have hmemids : t.id ∈ (topics.map (·.id)).filter (· != 0) := by
      refine List.mem_filter.mpr ⟨List.mem_map_of_mem _ ht, ?_⟩
      simpa using hid
    rw [if_pos hmemids]
    cases hdb : db t.id with
    | none =>
      simp [ht, hid]
    | some r =>
      obtain ⟨s, hs⟩ := Option.isSome_iff_exists.mp (hdbr r hdb)
      have hcne : c ≠ 0 := by omega
      simp [ht, hid, hs, hlt, hcne]

def tNew : TopicData := ⟨1, "a".data, "ua".data, none, none, 0, 50, some 50, none, false, []⟩

def tFresh : TopicData := ⟨2, "b".data, "ub".data, none, none, 0, 200, some 200, none, false, []⟩

def tStale : TopicData := ⟨3, "c".data, "uc".data, none, none, 0, 100, some 100, none, false, []⟩

def rowS (i : Nat) : TopicRow :=
  ⟨i, [], [], [], none, none, 0, 0, some 100, none, false, 0, some 0, 0⟩

def dbC1 : Nat → Option TopicRow := fun i => if i = 2 ∨ i = 3 then some (rowS i) else none

def topicsC1 : List TopicData := [tNew, tFresh, tStale]

theorem c1_filter_stale_witness :
    tNew ∈ filterTopicsToUpdate dbC1 topicsC1 ∧
    tFresh ∈ filterTopicsToUpdate dbC1 topicsC1 ∧
    tStale ∉ filterTopicsToUpdate dbC1 topicsC1 := by
  have H := c1_filter_stale dbC1 topicsC1
  refine ⟨?_, ?_, ?_⟩
  · refine (H.2 tNew (by decide) 50 (by decide) rfl (by norm_num) ?_).mpr (Or.inl rfl)
    intro r h
    rw [show dbC1 tNew.id = none from rfl] at h
    cases h
  · refine (H.2 tFresh (by decide) 200 (by decide) rfl (by norm_num) ?_).mpr
      (Or.inr ⟨rowS 2, 100, by decide, by decide, by norm_num⟩)
    intro r h
    rw [show dbC1 tFresh.id = some (rowS 2) from by decide] at h
    injection h with h2
    subst h2
    rfl
  · intro hmem
    have hiff := (H.2 tStale (by decide) 100 (by decide) rfl (by norm_num) ?_).mp hmem
    · rcases hiff with hnone | ⟨r, s, hr, hs, hlt⟩
      · rw [show dbC1 tStale.id = some (rowS 3) from by decide] at hnone
        cases hnone
      · rw [show dbC1 tStale.id = some (rowS 3) from by decide] at hr
        injection hr with h2
        subst h2
        rw [show (rowS 3).last_touched_timestamp = some 100 from rfl] at hs
        injection hs with h3
        subst h3
        exact absurd hlt (by norm_num)
    · intro r h
      rw [show dbC1 tStale.id = some (rowS 3) from by decide] at h
      injection h with h2
      subst h2
      rfl

/-! ### Idempotence machinery for the topic batch upsert (C9)

A `TopicRow` splits into the components the `ON DUPLICATE KEY UPDATE` arm
never touches (`topicRowImm`) and the components it overwrites with values
taken from the incoming record (`topicRowMut`); together they determine the
row. -/

def topicRowImm (r : TopicRow) :
    Nat × List Char × Option (List Char) × Option (List Char) × Int × Int × Option ℚ :=
  (r.id, r.url, r.node_name, r.member_username, r.created_timestamp,
    r.total_thanks_count, r.hotness_score)

def topicRowMut (r : TopicRow) :
    List Char × List Char × Int × Option Int × Option Int × Bool × Int :=
  (r.title, r.content, r.replies, r.last_touched_timestamp,
    r.last_modified_timestamp, r.is_deleted, r.crawled_at)

theorem topicRow_ext {a b : TopicRow} (h1 : topicRowImm a = topicRowImm b)
    (h2 : topicRowMut a = topicRowMut b) : a = b := by
  cases a
  cases b
  simp only [topicRowImm, topicRowMut, Prod.mk.injEq] at h1 h2
  obtain ⟨e1, e2, e3, e4, e5, e6, e7⟩ := h1
  obtain ⟨f1, f2, f3, f4, f5, f6, f7⟩ := h2
  subst_vars
  rfl

/-- Processing one incoming record at a fixed key. -/
def stepTopic (now : Int) (acc : Option TopicRow) (t : TopicData) : Option TopicRow :=
  some (match acc with
        | none => insertTopicRow t now
        | some o => mergeTopicRow o t now)

theorem upsertTopic_apply (db : Nat → Option TopicRow) (t : TopicData)
    (now : Int) (i : Nat) :
    upsertTopic db t now i = if i = t.id then stepTopic now (db t.id) t else db i := rfl

theorem imm_merge (o : TopicRow) (t : TopicData) (now : Int) :
    topicRowImm (mergeTopicRow o t now) = topicRowImm o := rfl

theorem mut_merge (o : TopicRow) (t : TopicData) (now : Int) :
    topicRowMut (mergeTopicRow o t now) =
      (t.title, t.content, t.replies, t.last_touched, t.last_modified,
        t.deleted, now) := rfl

theorem mut_insert (t : TopicData) (now : Int) :
    topicRowMut (insertTopicRow t now) =
      (t.title, t.content, t.replies, t.last_touched, t.last_modified,
        t.deleted, now) := rfl

theorem stepTopic_some (now : Int) (r : TopicRow) (t : TopicData) :
    stepTopic now (some r) t = some (mergeTopicRow r t now) := rfl

/-- The value of a batch upsert at one key is a fold over the records whose
id is that key. -/
theorem foldl_upsert_apply (now : Int) :
    ∀ (l : List TopicData) (db : Nat → Option TopicRow) (i : Nat),
      (l.foldl (fun d t => upsertTopic d t now) db) i =
        (l.filter (fun t => t.id == i)).foldl (stepTopic now) (db i) := by
  intro l
  induction l with
  | nil => intro db i; rfl
  | cons t l ih =>
    intro db i
    rw [List.foldl_cons, ih]
    by_cases h : t.id = i
    · rw [upsertTopic_apply, if_pos h.symm]
      have hf : (t :: l).filter (fun t' => t'.id == i) =
          t :: l.filter (fun t' => t'.id == i) := by
        simp [List.filter_cons, h]
      rw [hf, List.foldl_cons, h]
    · rw [upsertTopic_apply, if_neg (fun hh => h hh.symm)]
      have hf : (t :: l).filter (fun t' => t'.id == i) =
          l.filter (fun t' => t'.id == i) := by
        simp [List.filter_cons, h]
      rw [hf]

theorem foldl_step_imm (now : Int) :
    ∀ (l : List TopicData) (r : TopicRow),
      ∃ r', l.foldl (stepTopic now) (some r) = some r' ∧
        topicRowImm r' = topicRowImm r := by
  intro l
  induction l with
  | nil => intro r; exact ⟨r, rfl, rfl⟩
  | cons t l ih =>
    intro r
    rw [List.foldl_cons, stepTopic_some]
    obtain ⟨r', h1, h2⟩ := ih (mergeTopicRow r t now)
    exact ⟨r', h1, by rw [h2, imm_merge]⟩

theorem foldl_step_cong (now : Int) :
    ∀ (l : List TopicData) (r r' : TopicRow),
      topicRowImm r = topicRowImm r' → l ≠ [] →
      l.foldl (stepTopic now) (some r) = l.foldl (stepTopic now) (some r') := by
  intro l
  induction l with
  | nil => intro r r' _ h; exact absurd rfl h
  | cons t l ih =>
    intro r r' him _
    rw [List.foldl_cons, List.foldl_cons, stepTopic_some, stepTopic_some]
    by_cases hl : l = []
    · subst hl
      simp only [List.foldl_nil]
      exact congrArg some
        (topicRow_ext (by rw [imm_merge, imm_merge, him]) (by rw [mut_merge, mut_merge]))
    · exact ih _ _ (by rw [imm_merge, imm_merge, him]) hl

theorem foldl_step_idem (now : Int) (l : List TopicData) (x : Option TopicRow) :
    l.foldl (stepTopic now) (l.foldl (stepTopic now) x) = l.foldl (stepTopic now) x := by
  cases l with
  | nil => rfl
  | cons t l' =>
    rw [List.foldl_cons, List.foldl_cons]
    cases x with
    | none =>
      rw [show stepTopic now none t = some (insertTopicRow t now) from rfl]
      obtain ⟨yR, hy, hyimm⟩ := foldl_step_imm now l' (insertTopicRow t now)
      rw [hy, stepTopic_some]
      by_cases hl' : l' = []
      · subst hl'
        simp only [List.foldl_nil] at hy ⊢
        injection hy with hyy
        subst hyy
        exact congrArg some (topicRow_ext rfl (by rw [mut_merge, mut_insert]))
      · rw [← hy]
        exact foldl_step_cong now l' _ _ (by rw [imm_merge, hyimm]) hl'
    | some o =>
      rw [stepTopic_some]
      obtain ⟨yR, hy, hyimm⟩ := foldl_step_imm now l' (mergeTopicRow o t now)
      rw [hy, stepTopic_some]
      by_cases hl' : l' = []
      · subst hl'
        simp only [List.foldl_nil] at hy ⊢
        injection hy with hyy
        subst hyy
        exact congrArg some (topicRow_ext rfl (by rw [mut_merge, mut_merge]))
      · rw [← hy]
        exact foldl_step_cong now l' _ _ (by rw [imm_merge, hyimm]) hl'

/-- C9: applying the batch thread upsert twice with an identical input list
(and the same fetch stamp) leaves exactly the state one application
produces: rows are keyed by thread id, so no duplicate rows appear and no
stored field drifts.  The idempotence holds whether or not the batch's
`executemany` fails (a failed batch changes nothing both times). -/
theorem c9_batch_upsert_idempotent (fails : TopicData → Bool) (now : Int)
    (db : Nat → Option TopicRow) (ts : List TopicData) :
    batchInsertOrUpdateTopics fails now
        (batchInsertOrUpdateTopics fails now db ts).1 ts =
      batchInsertOrUpdateTopics fails now db ts := by
  unfold batchInsertOrUpdateTopics
  by_cases h : (ts.map sanitizeTopicData).any fails
  · simp [h]
  · simp only [h, Bool.false_eq_true, if_false, Prod.mk.injEq, and_true]
    funext i
    simp only [foldl_upsert_apply now]
    exact foldl_step_idem now _ (db i)

/-! ### Batch-failure fallback (C4) -/

theorem chunksOf_join (n : Nat) (hn : n ≠ 0) (xs : List α) :
    (chunksOf n xs).join = xs := by
  have key : ∀ (k : Nat) (ys : List α), ys.length ≤ k → (chunksOf n ys).join = ys := by
    intro k
    induction k with
    | zero =>
      intro ys h
      have hnil : ys = [] := by
        cases ys with
        | nil => rfl
        | cons a l => simp at h
      subst hnil
      rw [chunksOf]
      simp
    | succ k ih =>
      intro ys h
      rw [chunksOf]
      by_cases he : ys.isEmpty ∨ n = 0
      · rw [dif_pos he]
        rcases he with he | he
        · rw [List.isEmpty_eq_true.mp he]
          rfl
        · exact absurd he hn
      · rw [dif_neg he]
        push_neg at he
        have h1 : ys ≠ [] := by
          intro hy
          exact absurd (by simp [hy]) he.1
        have hlen : (ys.drop n).length ≤ k := by
          have : 0 < ys.length := List.length_pos.mpr h1
          have : 0 < n := Nat.pos_of_ne_zero he.2
          simp only [List.length_drop]
          omega
        show List.take n ys ++ (chunksOf n (ys.drop n)).join = ys
        rw [ih (ys.drop n) hlen, List.take_append_drop]
  exact key xs.length xs le_rfl

theorem upsertReply_isSome (d : Int → Option ReplyRow) (r : ReplyData) (now : Int)
    (k : Int) (h : (d k).isSome) : ((upsertReply d r now) k).isSome := by
  unfold upsertReply
  by_cases hk : k = r.id
  · simp [hk]
  · simpa [hk] using h

theorem upsertReply_sets (d : Int → Option ReplyRow) (r : ReplyData) (now : Int) :
    ((upsertReply d r now) r.id).isSome := by
  simp [upsertReply]

theorem guardedReplyFold_preserves (g : ReplyData → Bool) (now : Int) :
    ∀ (b : List ReplyData) (d : Int → Option ReplyRow) (k : Int), (d k).isSome →
      ((b.foldl (fun d' r => if g r then d' else upsertReply d' r now) d) k).isSome := by
  intro b
  induction b with
  | nil => intro d k h; exact h
  | cons r b ih =>
    intro d k h
    rw [List.foldl_cons]
    refine ih _ k ?_
    by_cases hg : g r
    · simpa [hg] using h
    · simp only [hg, Bool.false_eq_true, if_false]
      exact upsertReply_isSome d r now k h

theorem plainReplyFold_preserves (now : Int) :
    ∀ (b : List ReplyData) (d : Int → Option ReplyRow) (k : Int), (d k).isSome →
      ((b.foldl (fun d' r => upsertReply d' r now) d) k).isSome := by
  intro b
  induction b with
  | nil => intro d k h; exact h
  | cons r b ih =>
    intro d k h
    rw [List.foldl_cons]
    exact ih _ k (upsertReply_isSome d r now k h)

theorem guardedReplyFold_sets (g : ReplyData → Bool) (now : Int) :
    ∀ (b : List ReplyData) (d : Int → Option ReplyRow) (x : ReplyData),
      x ∈ b → g x = false →
      ((b.foldl (fun d' r => if g r then d' else upsertReply d' r now) d) x.id).isSome := by
  intro b
  induction b with
  | nil => intro d x hx; cases hx
  | cons r b ih =>
    intro d x hx hgx
    rw [List.foldl_cons]
    rcases List.mem_cons.mp hx with hx | hx
    · subst hx
      refine guardedReplyFold_preserves g now b _ x.id ?_
      simp only [hgx, Bool.false_eq_true, if_false]
      exact upsertReply_sets d x now
    · exact ih _ x hx hgx

theorem plainReplyFold_sets (now : Int) :
    ∀ (b : List ReplyData) (d : Int → Option ReplyRow) (x : ReplyData), x ∈ b →
      ((b.foldl (fun d' r => upsertReply d' r now) d) x.id).isSome := by
  intro b
  induction b with
  | nil => intro d x hx; cases hx
  | cons r b ih =>
    intro d x hx
    rw [List.foldl_cons]
    rcases List.mem_cons.mp hx with hx | hx
    · subst hx
      exact plainReplyFold_preserves now b _ x.id (upsertReply_sets d x now)
    · exact ih _ x hx

theorem replyChunkStep_preserves (fails : ReplyData → Bool) (now : Int)
    (batch : List ReplyData) (d : Int → Option ReplyRow) (k : Int)
    (h : (d k).isSome) : ((replyChunkStep fails now d batch) k).isSome := by
  unfold replyChunkStep
  by_cases hb : batch.any fails
  · simp only [hb, if_true]
    exact guardedReplyFold_preserves fails now batch d k h
  · simp only [hb, Bool.false_eq_true, if_false]
    exact plainReplyFold_preserves now batch d k h

theorem replyChunkStep_sets (fails : ReplyData → Bool) (now : Int)
    (batch : List ReplyData) (d : Int → Option ReplyRow) (x : ReplyData)
    (hx : x ∈ batch) (hfx : fails x = false) :
    ((replyChunkStep fails now d batch) x.id).isSome := by
  unfold replyChunkStep
  by_cases hb : batch.any fails
  · simp only [hb, if_true]
    exact guardedReplyFold_sets fails now batch d x hx hfx
  · simp only [hb, Bool.false_eq_true, if_false]
    exact plainReplyFold_sets now batch d x hx

theorem chunkFold_preserves (fails : ReplyData → Bool) (now : Int) :
    ∀ (L : List (List ReplyData)) (d : Int → Option ReplyRow) (k : Int),
      (d k).isSome → ((L.foldl (replyChunkStep fails now) d) k).isSome := by
  intro L
  induction L with
  | nil => intro d k h; exact h
  | cons b L ih =>
    intro d k h
    rw [List.foldl_cons]
    exact ih _ k (replyChunkStep_preserves fails now b d k h)

theorem chunkFold_sets (fails : ReplyData → Bool) (now : Int) :
    ∀ (L : List (List ReplyData)) (d : Int → Option ReplyRow)
      (b : List ReplyData) (x : ReplyData), b ∈ L → x ∈ b → fails x = false →
      ((L.foldl (replyChunkStep fails now) d) x.id).isSome := by
  intro L
  induction L with
  | nil => intro d b x hb; cases hb
  | cons b0 L ih =>
    intro d b x hb hx hfx
    rw [List.foldl_cons]
    rcases List.mem_cons.mp hb with hb | hb
    · subst hb
      exact chunkFold_preserves fails now L _ x.id
        (replyChunkStep_sets fails now b d x hx hfx)
    · exact ih _ b x hb hx hfx

theorem eraseDupsLoop_mem {α : Type} [BEq α] [LawfulBEq α] (x : α) :
    ∀ (as bs : List α), x ∈ List.eraseDups.loop as bs ↔ x ∈ as ∨ x ∈ bs := by
  intro as
  induction as with
  | nil =>
    intro bs
    rw [List.eraseDups.loop]
    simp
  | cons a as ih =>
    intro bs
    rw [List.eraseDups.loop]
    cases h : bs.elem a with
    | true =>
      have ha : a ∈ bs := by
        have := List.elem_iff.mp h
        exact this
      simp only [ih]
      constructor
      · rintro (hx | hx)
        · exact Or.inl (List.mem_cons_of_mem a hx)
        · exact Or.inr hx
      · rintro (hx | hx)
        · rcases List.mem_cons.mp hx with hx | hx
          · exact Or.inr (hx ▸ ha)
          · exact Or.inl hx
        · exact Or.inr hx
    | false =>
      simp only [ih, List.mem_cons]
      tauto

theorem mem_eraseDups {α : Type} [BEq α] [LawfulBEq α] (x : α) (l : List α) :
    x ∈ l.eraseDups ↔ x ∈ l := by
  unfold List.eraseDups
  rw [eraseDupsLoop_mem]
  simp

theorem insertIgnoreUser_isSome (fails : List Char → Bool) (now : Int)
    (d : List Char → Option Int) (u k : List Char) (h : (d k).isSome) :
    ((insertIgnoreUser fails now d u) k).isSome := by
  unfold insertIgnoreUser
  by_cases h1 : (u.take 50).isEmpty
  · simpa [h1] using h
  · by_cases h2 : fails (u.take 50)
    · simpa [h1, h2] using h
    · simp only [h1, h2, Bool.false_eq_true, if_false]
      by_cases hk : k = u.take 50
      · simp [hk]
      · simpa [hk] using h

theorem userFold_preserves (fails : List Char → Bool) (now : Int) :
    ∀ (L : List (List Char)) (d : List Char → Option Int) (k : List Char),
      (d k).isSome →
      ((L.foldl (fun d' u => insertIgnoreUser fails now d' u) d) k).isSome := by
  intro L
  induction L with
  | nil => intro d k h; exact h
  | cons u L ih =>
    intro d k h
    rw [List.foldl_cons]
    exact ih _ k (insertIgnoreUser_isSome fails now d u k h)

theorem userFold_sets (fails : List Char → Bool) (now : Int) :
    ∀ (L : List (List Char)) (d : List Char → Option Int) (u : List Char),
      u ∈ L → u.take 50 = u → ¬u.isEmpty → fails u = false →
      ((L.foldl (fun d' u' => insertIgnoreUser fails now d' u') d) u).isSome := by
  intro L
  induction L with
  | nil => intro d u hu; cases hu
  | cons u0 L ih =>
    intro d u hu htake hne hfu
    rw [List.foldl_cons]
    rcases List.mem_cons.mp hu with hu | hu
    · subst hu
      refine userFold_preserves fails now L _ u ?_
      unfold insertIgnoreUser
      rw [htake]
      simp only [hfu, Bool.false_eq_true, if_false]
      have : ¬u.isEmpty = true := hne
      simp [this]
    · exact ih _ u hu htake hne hfu

def tPoison : TopicData := ⟨1, "p".data, "up".data, none, none, 0, 1, some 1, none, false, []⟩

def tGood : TopicData := ⟨2, "g".data, "ug".data, none, none, 0, 1, some 1, none, false, []⟩

/-- C4 counterexample: the THREAD batch upsert has no per-item fallback.
A two-thread batch whose first record poisons the `executemany` loses the
second, individually-valid record too: after the call the valid thread is
absent from storage. -/
theorem c4_counterexample :
    (batchInsertOrUpdateTopics (fun t => t.id == 1) 0 (fun _ => none)
        [tPoison, tGood]).1 2 = none ∧
    (fun t : TopicData => t.id == 1) (sanitizeTopicData tGood) = false := by
  decide

/-- C4 amended: the batch→individual fallback exists for REPLY batches and
AUTHOR batches — after a batch whose `executemany` fails, every item that
does not itself fail individually is persisted (present in storage), and
items failing individually are only skipped — but NOT for thread batches,
where a failed `executemany` loses the whole batch. -/
theorem c4_batch_fallback :
    (∀ (fails : ReplyData → Bool) (now : Int) (db : Int → Option ReplyRow)
        (rs : List ReplyData) (r : ReplyData), r ∈ rs →
      fails (sanitizeReplyData r) = false →
      ((batchInsertOrUpdateReplies fails now db rs) (sanitizeReplyData r).id).isSome) ∧
    (∀ (fails : List Char → Bool) (now : Int) (db : List Char → Option Int)
        (usernames : List (List Char)) (u : List Char), u ∈ usernames →
      pyStrip u ≠ [] → fails ((pyStrip u).take 50) = false →
      ((batchInsertUsersByUsername fails now db usernames) ((pyStrip u).take 50)).isSome) := by
  constructor
  · intro fails now db rs r hr hfr
    unfold batchInsertOrUpdateReplies
    have hx : sanitizeReplyData r ∈ rs.map sanitizeReplyData :=
      List.mem_map_of_mem _ hr
    rw [← chunksOf_join 500 (by norm_num) (rs.map sanitizeReplyData)] at hx
    obtain ⟨b, hb, hxb⟩ := List.mem_join.mp hx
    exact chunkFold_sets fails now _ db b (sanitizeReplyData r) hb hxb hfr
  · intro fails now db usernames u hu hne hfu
    unfold batchInsertUsersByUsername
    have hdups : u ∈ usernames.eraseDups := (mem_eraseDups u usernames).mpr hu
    have hcl : (pyStrip u).take 50 ∈ usernames.eraseDups.filterMap
        (fun u' =>
          let s := pyStrip u'
          if s.isEmpty then none else some (s.take 50)) := by
      refine List.mem_filterMap.mpr ⟨u, hdups, ?_⟩
      have : ¬(pyStrip u).isEmpty = true := by
        simpa using hne
      simp [this]
    refine userFold_sets fails now _ db ((pyStrip u).take 50) hcl ?_ ?_ hfu
    · simp [List.take_take]
    · have : pyStrip u ≠ [] := hne
      cases hps : pyStrip u with
      | nil => exact absurd hps this
      | cons a l => simp [hps]

def rPoison : ReplyData := ⟨5, 1, none, "x".data, 1, 0, none, 0⟩

def rGood : ReplyData := ⟨6, 1, none, "y".data, 2, 0, none, 0⟩

theorem c4_batch_fallback_witness :
    ((batchInsertOrUpdateReplies (fun r => r.id == 5) 0 (fun _ => none)
        [rPoison, rGood]) (sanitizeReplyData rGood).id).isSome ∧
    ((batchInsertUsersByUsername (fun u => u == ("bad".data)) 0 (fun _ => none)
        [(" alice ".data), ("bad".data)]) ((pyStrip (" alice ".data)).take 50)).isSome := by
  constructor
  · exact c4_batch_fallback.1 (fun r => r.id == 5) 0 (fun _ => none) [rPoison, rGood]
      rGood (by decide) (by decide)
  · exact c4_batch_fallback.2 (fun u => u == ("bad".data)) 0 (fun _ => none)
      [(" alice ".data), ("bad".data)] (" alice ".data) (by decide) (by decide) (by decide)

/-! ### String-scanning lemmas for the relative-time parser (C7) -/

theorem isPrefixOf_self_char : ∀ l : List Char, l.isPrefixOf l = true := by
  intro l
  induction l with
  | nil => rfl
  | cons c l ih => simp [List.isPrefixOf, ih]

theorem containsSub_append_self (pre sub : List Char) :
    containsSub sub (pre ++ sub) = true := by
  induction pre with
  | nil =>
    simp only [List.nil_append]
    cases sub with
    | nil => rfl
    | cons c l => simp [containsSub, isPrefixOf_self_char]
  | cons c pre ih => simp [containsSub, ih]

theorem containsSub_head_mem (c : Char) (m : List Char) :
    ∀ s : List Char, containsSub (c :: m) s = true → c ∈ s := by
  intro s
  induction s with
  | nil => intro h; exact absurd h (by simp [containsSub])
  | cons a s ih =>
    intro h
    rcases Bool.or_eq_true_iff.mp h with h | h
    · have : (c == a) = true := by
        have := h
        simp only [List.isPrefixOf] at this
        exact (Bool.and_eq_true_iff.mp this).1
      rw [show c = a from by simpa using this]
      exact List.mem_cons_self a s
    · exact List.mem_cons_of_mem a (ih h)

theorem containsSub_eq_false (c : Char) (m s : List Char) (h : c ∉ s) :
    containsSub (c :: m) s = false := by
  cases hcon : containsSub (c :: m) s with
  | false => rfl
  | true => exact absurd (containsSub_head_mem c m s hcon) h

theorem takeWhile_append_digits (p : Char → Bool) :
    ∀ (ds : List Char) (c : Char) (m : List Char),
      (∀ a ∈ ds, p a = true) → p c = false →
      ((ds ++ c :: m).takeWhile p = ds ∧ (ds ++ c :: m).dropWhile p = c :: m) := by
  intro ds
  induction ds with
  | nil =>
    intro c m _ hc
    simp [List.takeWhile_cons, List.dropWhile_cons, hc]
  | cons d ds ih =>
    intro c m hall hc
    have hd : p d = true := hall d (List.mem_cons_self d ds)
    simp only [List.cons_append, List.takeWhile_cons, List.dropWhile_cons, hd, if_true,
      List.cons.injEq, true_and]
    exact ih c m (fun a ha => hall a (List.mem_cons_of_mem d ha)) hc

theorem findNumBefore_append (mc : Char) (mrest : List Char)
    (hmd : mc.isDigit = false) (hms : pyIsSpace mc = false) :
    ∀ ds : List Char, ds ≠ [] → (∀ a ∈ ds, a.isDigit = true) →
      findNumBefore (mc :: mrest) (ds ++ mc :: mrest) = some (natOfDigits ds) := by
  intro ds hne hdig
  obtain ⟨d, ds', rfl⟩ := List.exists_cons_of_ne_nil hne
  have hd : d.isDigit = true := hdig d (List.mem_cons_self d ds')
  have ht := takeWhile_append_digits (fun c => c.isDigit) (d :: ds') mc mrest hdig hmd
  have hdw : (mc :: mrest).dropWhile pyIsSpace = mc :: mrest := by
    simp [List.dropWhile_cons, hms]
  rw [show (d :: ds') ++ mc :: mrest = d :: (ds' ++ mc :: mrest) from rfl]
  rw [findNumBefore]
  simp only [hd, if_true]
  rw [show d :: (ds' ++ mc :: mrest) = (d :: ds') ++ mc :: mrest from rfl]
  rw [ht.1, ht.2, hdw, isPrefixOf_self_char]
  simp

theorem minuteMarker_eq : minuteMarker = '分' :: '钟' :: '前' :: [] := by decide

theorem hourMarker_eq : hourMarker = '小' :: '时' :: '前' :: [] := by decide

theorem dayMarker_eq : dayMarker = '天' :: '前' :: [] := by decide

/-- C7 counterexample: the empty string is an input on which the parser does
not resolve to "now": it returns `None` (no timestamp) from the falsy-input
guard before the `try` block. -/
theorem c7_counterexample :
    parseRelativeTime (fun _ => 0) 55 [] ≠ some 55 := by decide

/-- C7 amended: for every NON-EMPTY input the parser returns a timestamp and
never raises: `now - N*60` / `now - N*3600` / `now - N*86400` for the
canonical "N minutes/hours/days ago" phrases, the literal parse (through the
environment's epoch conversion) for a `YYYY-MM-DD HH:MM:SS` string, and
"now" for any phrase containing none of the three markers and not starting
date-shaped; the EMPTY string alone returns no timestamp (`None`), which the
call sites then replace by "now". -/
theorem c7_relative_time (epochOf : DateFields → Int) (now : Int) :
    (∀ s : List Char, s ≠ [] → (parseRelativeTime epochOf now s).isSome) ∧
    (∀ ds : List Char, ds ≠ [] → (∀ c ∈ ds, c.isDigit = true) →
      parseRelativeTime epochOf now (ds ++ minuteMarker) =
        some (now - natOfDigits ds * 60)) ∧
    (∀ ds : List Char, ds ≠ [] → (∀ c ∈ ds, c.isDigit = true) →
      parseRelativeTime epochOf now (ds ++ hourMarker) =
        some (now - natOfDigits ds * 3600)) ∧
    (∀ ds : List Char, ds ≠ [] → (∀ c ∈ ds, c.isDigit = true) →
      parseRelativeTime epochOf now (ds ++ dayMarker) =
        some (now - natOfDigits ds * 86400)) ∧
    (parseRelativeTime epochOf now ("2023-12-25 14:30:15".data) =
      some (epochOf ⟨2023, 12, 25, 14, 30, 15⟩)) ∧
    (∀ s : List Char, s ≠ [] → containsSub minuteMarker s = false →
      containsSub hourMarker s = false → containsSub dayMarker s = false →
      matchesDatePrefix s = false → parseRelativeTime epochOf now s = some now) ∧
    (parseRelativeTime epochOf now [] = none) := by
  refine ⟨?_, ?_, ?_, ?_, rfl, ?_, rfl⟩
  · intro s hs
    have h0 : s.isEmpty = false := by
      cases s with
      | nil => exact absurd rfl hs
      | cons a l => rfl
    unfold parseRelativeTime
    rw [h0]
    simp only [Bool.false_eq_true, if_false]
    (repeat' split) <;> simp
  · intro ds hne hdig
    have hcon := containsSub_append_self ds minuteMarker
    have hfind : findNumBefore minuteMarker (ds ++ minuteMarker) =
        some (natOfDigits ds) := by
      rw [minuteMarker_eq]
      exact findNumBefore_append '分' _ (by decide) (by decide) ds hne hdig
    have h0 : (ds ++ minuteMarker).isEmpty = false := by
      obtain ⟨d, ds', rfl⟩ := List.exists_cons_of_ne_nil hne
      rfl
    unfold parseRelativeTime
    rw [h0, hcon, hfind]
    simp
  · intro ds hne hdig
    have hmin : containsSub minuteMarker (ds ++ hourMarker) = false := by
      rw [minuteMarker_eq]
      refine containsSub_eq_false _ _ _ ?_
      intro hmem
      rcases List.mem_append.mp hmem with h | h
      · exact absurd (hdig _ h) (by decide)
      · exact absurd h (by decide)
    have hcon := containsSub_append_self ds hourMarker
    have hfind : findNumBefore hourMarker (ds ++ hourMarker) =
        some (natOfDigits ds) := by
      rw [hourMarker_eq]
      exact findNumBefore_append '小' _ (by decide) (by decide) ds hne hdig
    have h0 : (ds ++ hourMarker).isEmpty = false := by
      obtain ⟨d, ds', rfl⟩ := List.exists_cons_of_ne_nil hne
      rfl
    unfold parseRelativeTime
    rw [h0, hmin, hcon, hfind]
    simp
  · intro ds hne hdig
    have hmin : containsSub minuteMarker (ds ++ dayMarker) = false := by
      rw [minuteMarker_eq]
      refine containsSub_eq_false _ _ _ ?_
      intro hmem
      rcases List.mem_append.mp hmem with h | h
      · exact absurd (hdig _ h) (by decide)
      · exact absurd h (by decide)
    have hhour : containsSub hourMarker (ds ++ dayMarker) = false := by
      rw [hourMarker_eq]
      refine containsSub_eq_false _ _ _ ?_
      intro hmem
      rcases List.mem_append.mp hmem with h | h
      · exact absurd (hdig _ h) (by decide)
      · exact absurd h (by decide)
    have hcon := containsSub_append_self ds dayMarker
    have hfind : findNumBefore dayMarker (ds ++ dayMarker) =
        some (natOfDigits ds) := by
      rw [dayMarker_eq]
      exact findNumBefore_append '天' _ (by decide) (by decide) ds hne hdig
    have h0 : (ds ++ dayMarker).isEmpty = false := by
      obtain ⟨d, ds', rfl⟩ := List.exists_cons_of_ne_nil hne
      rfl
    unfold parseRelativeTime
    rw [h0, hmin, hhour, hcon, hfind]
    simp
  · intro s hs h1 h2 h3 h4
    have h0 : s.isEmpty = false := by
      cases s with
      | nil => exact absurd rfl hs
      | cons a l => rfl
    unfold parseRelativeTime
    rw [h0, h1, h2, h3, h4]
    simp

theorem c7_relative_time_witness :
    parseRelativeTime (fun _ => 0) 1000 ("5分钟前".data) = some 700 ∧
    parseRelativeTime (fun _ => 0) 1000 ("你好".data) = some 1000 ∧
    parseRelativeTime (fun _ => 0) 1000 ("3天前".data) = some (1000 - 259200) ∧
    parseRelativeTime (fun _ => 0) 1000 [] = none := by
  have H := c7_relative_time (fun _ => 0) 1000
  refine ⟨?_, ?_, ?_, H.2.2.2.2.2.2⟩
  · have h := H.2.1 ['5'] (by decide) (by decide)
    rw [show ("5分钟前".data) = ['5'] ++ minuteMarker from by decide]
    rw [h]
    decide
  · exact H.2.2.2.2.2.1 ("你好".data) (by decide) (by decide) (by decide) (by decide)
      (by decide)
  · have h := H.2.2.2.1 ['3'] (by decide) (by decide)
    rw [show ("3天前".data) = ['3'] ++ dayMarker from by decide]
    rw [h]
    decide

end V2EX
